import Mathlib

/-!
Verification of the PRGuard triage engine (duplicate detection, quality
scoring, rate limiting, embedding lifecycle, and the issue pipeline)
against its natural-language specification.

Modelling conventions:
* JavaScript numbers are modelled as exact rationals (`ℚ`); counts are `ℕ`.
* `Math.sqrt` is modelled by `Rat.sqrt` (exact on perfect squares).  Every
  theorem below that involves a similarity value either takes the comparison
  as a hypothesis or instantiates it on vectors whose magnitudes are perfect
  squares, so the proofs do not depend on the rounding behaviour of `sqrt`.
* The JavaScript regular-expression tests of `quality.ts` are modelled by
  explicit character-list scans, with `/i` modelled by lower-casing.  The
  string primitives `trim`, `toLowerCase`, `endsWith`, `slice` and `join`
  are modelled by structural character-list operations (`strTrim`,
  `strLower`, `strEndsWith`, `joinSep`), semantically the standard ones.
* The SQLite tables are modelled as association lists (for the stores whose
  listing order matters) or as total count maps (for the rate-limit
  counters); `created_at DESC` ordering is modelled by prepending on upsert.
* External side effects of the pipeline are recorded in an explicit trace of
  `Effect`s; comment bodies are abstracted to the data they are built from
  (the markdown templating is out of scope per the spec).
-/

namespace PRGuard

/-- Item kind, `src/types.ts`: `export type ItemType = "pr" | "issue"`. -/
inductive ItemType where
  | pr
  | issue
deriving DecidableEq, Repr

/-- EmbeddingRecord, `src/types.ts`. -/
structure EmbeddingRecord where
  repo : String
  type : ItemType
  number : ℕ
  title : String
  body : String
  diffSummary : String
  embedding : List ℚ
deriving DecidableEq, Repr

/-- DuplicateMatch, `src/types.ts`. -/
structure DuplicateMatch where
  type : ItemType
  number : ℕ
  similarity : ℚ
  title : String
deriving DecidableEq, Repr

/-- Recommendation enum used by the quality scorer. -/
inductive Rec where
  | approve
  | review
  | reject
deriving DecidableEq, Repr

/-- AnalysisRecord, `src/types.ts` (nullable fields become `Option`). -/
structure AnalysisRecord where
  repo : String
  type : ItemType
  number : ℕ
  duplicates : List DuplicateMatch
  visionScore : Option ℚ
  visionReasoning : Option String
  recommendation : Option Rec
  prQualityScore : Option ℚ
deriving DecidableEq, Repr

/-! ## Deduplicator (`src/dedup.ts`) -/

/-- cosineSimilarity, `src/dedup.ts` lines 3-23.  The accumulation loop is
rendered as `zipWith`/`map` sums; `Math.sqrt` is modelled by `Rat.sqrt`. -/
def cosineSimilarity (a b : List ℚ) : ℚ :=
  if a.length = 0 ∨ b.length = 0 ∨ a.length ≠ b.length then 0
  else
    let dot := (List.zipWith (· * ·) a b).sum
    let magA := (a.map (fun x => x * x)).sum
    let magB := (b.map (fun x => x * x)).sum
    if magA = 0 ∨ magB = 0 then 0
    else dot / (Rat.sqrt magA * Rat.sqrt magB)

/-- The per-candidate match record built by `findDuplicates`. -/
def toMatch (current : EmbeddingRecord) (item : EmbeddingRecord) : DuplicateMatch :=
  { type := item.type
    number := item.number
    similarity := cosineSimilarity current.embedding item.embedding
    title := item.title }

/-- One step of the stable descending sort used to model
`.sort((a, b) => b.similarity - a.similarity)` (JavaScript `Array.sort` is
stable): an element is inserted after every strictly larger similarity and
before equal ones encountered later. -/
def insertDesc (x : DuplicateMatch) : List DuplicateMatch → List DuplicateMatch
  | [] => [x]
  | y :: ys => if y.similarity ≤ x.similarity then x :: y :: ys else y :: insertDesc x ys

/-- Stable sort by similarity descending (insertion sort). -/
def sortBySimilarityDesc : List DuplicateMatch → List DuplicateMatch
  | [] => []
  | x :: xs => insertDesc x (sortBySimilarityDesc xs)

/-- The filter-and-map stage of `findDuplicates` before sorting, in candidate
order. -/
def duplicateCandidates (current : EmbeddingRecord) (existing : List EmbeddingRecord)
    (threshold : ℚ) : List DuplicateMatch :=
  ((existing.filter
      (fun item => decide ¬(item.type = current.type ∧ item.number = current.number))).map
    (toMatch current)).filter
    (fun item => decide (threshold ≤ item.similarity))

/-- findDuplicates, `src/dedup.ts` lines 25-40. -/
def findDuplicates (current : EmbeddingRecord) (existing : List EmbeddingRecord)
    (threshold : ℚ) : List DuplicateMatch :=
  sortBySimilarityDesc (duplicateCandidates current existing threshold)

/-- Duplicate cluster, the anonymous return shape of `clusterDuplicates`. -/
structure Cluster where
  anchor : EmbeddingRecord
  members : List EmbeddingRecord
deriving DecidableEq, Repr

/-- The visited-set key `type:number` of `clusterDuplicates`. -/
def clusterKey (r : EmbeddingRecord) : ItemType × ℕ := (r.type, r.number)

/-- The inner candidate scan of `clusterDuplicates` (lines 58-69): walk the
full item list, skip visited keys, add any candidate whose similarity to the
anchor reaches the threshold, marking it visited. -/
def addMembers (anchor : EmbeddingRecord) (threshold : ℚ) :
    List EmbeddingRecord → List (ItemType × ℕ) → List EmbeddingRecord × List (ItemType × ℕ)
  | [], visited => ([], visited)
  | c :: rest, visited =>
    if clusterKey c ∈ visited then addMembers anchor threshold rest visited
    else if threshold ≤ cosineSimilarity anchor.embedding c.embedding then
      let out := addMembers anchor threshold rest (clusterKey c :: visited)
      (c :: out.1, out.2)
    else addMembers anchor threshold rest visited

/-- The outer anchor loop of `clusterDuplicates` (lines 49-72): iterate items
in input order, skip visited items, anchor a cluster on each unvisited item. -/
def clusterLoop (items : List EmbeddingRecord) (threshold : ℚ) :
    List EmbeddingRecord → List (ItemType × ℕ) → List Cluster
  | [], _ => []
  | item :: rest, visited =>
    if clusterKey item ∈ visited then clusterLoop items threshold rest visited
    else
      let out := addMembers item threshold items (clusterKey item :: visited)
      { anchor := item, members := item :: out.1 } :: clusterLoop items threshold rest out.2

/-- clusterDuplicates, `src/dedup.ts` lines 42-75: greedy non-transitive
clustering, returning only clusters with more than one member. -/
def clusterDuplicates (items : List EmbeddingRecord) (threshold : ℚ) : List Cluster :=
  (clusterLoop items threshold items []).filter (fun c => decide (1 < c.members.length))

/-! ## Quality scorer (`src/quality.ts`) -/

/-- PRQualityInput, `src/types.ts` (all numeric fields are counts in every
call site, so they are modelled as `ℕ`). -/
structure PRQualityInput where
  additions : ℕ
  deletions : ℕ
  changedFiles : ℕ
  hasTests : Bool
  commitMessages : List String
  contributorMergedPRs : ℕ
  contributorAccountAgeDays : ℕ
  ciPassing : Bool
deriving DecidableEq, Repr

/-- PRQualityResult, `src/types.ts`. -/
structure PRQualityResult where
  score : ℚ
  recommendation : Rec
  reasons : List String
deriving DecidableEq, Repr

/-- scoreDiffQuality, `src/quality.ts` lines 5-10. -/
def scoreDiffQuality (additions deletions changedFiles : ℕ) : ℚ :=
  let totalLines : ℚ := (additions : ℚ) + (deletions : ℚ)
  let lineScore := max 0 (1 - totalLines / 350)
  let fileScore : ℚ :=
    if changedFiles ≤ 8 then 1 else max 0 (1 - ((changedFiles : ℚ) - 8) / 20)
  0.6 * lineScore + 0.4 * fileScore

/-- Character-list model of `String.trim`: drop whitespace from both ends. -/
def trimChars (l : List Char) : List Char :=
  ((l.dropWhile Char.isWhitespace).reverse.dropWhile Char.isWhitespace).reverse

/-- Model of `.trim()` on strings. -/
def strTrim (s : String) : String := ⟨trimChars s.data⟩

/-- Model of `.toLowerCase()` on strings. -/
def strLower (s : String) : String := ⟨s.data.map Char.toLower⟩

/-- Model of `.endsWith(pat)` on strings. -/
def strEndsWith (s pat : String) : Bool :=
  List.isPrefixOf pat.data.reverse s.data.reverse

/-- Model of `[...].join(sep)` on strings. -/
def joinSep (sep : String) (parts : List String) : String :=
  ⟨List.intercalate sep.data (parts.map String.data)⟩

/-- Test of the regex `/wip/i` against a (lower-cased) character list:
substring containment. -/
def containsWip : List Char → Bool
  | [] => false
  | c :: rest => List.isPrefixOf [ 'w', 'i', 'p'] (c :: rest) || containsWip rest

/-- Match of `fix\s*stuff` at the head of a (lower-cased) character list. -/
def fixStuffHere (l : List Char) : Bool :=
  match l with
  | 'f' :: 'i' :: 'x' :: rest =>
    List.isPrefixOf [ 's', 't', 'u', 'f', 'f'] (rest.dropWhile Char.isWhitespace)
  | _ => false

/-- Test of the regex `/fix\s*stuff/i` against a (lower-cased) character
list: an unanchored match anywhere in the string. -/
def containsFixStuff : List Char → Bool
  | [] => false
  | c :: rest => fixStuffHere (c :: rest) || containsFixStuff rest

/-- The commit-message test of `scoreCommitHygiene` (`src/quality.ts` lines
18-24): a message is good when its trimmed length is within [8, 90] and it
matches none of the low-effort patterns `/wip/i`, `/fix\s*stuff/i`,
`/^update$/i`, `/^changes$/i` (note: the first two are substring matches,
only the last two are anchored to the whole message). -/
def isGoodCommitMessage (msg : String) : Bool :=
  let trimmed := strTrim msg
  if trimmed.length < 8 || 90 < trimmed.length then false
  else
    let low := strLower trimmed
    !(containsWip low.data || containsFixStuff low.data ||
      low == "update" || low == "changes")

/-- scoreCommitHygiene, `src/quality.ts` lines 12-27. -/
def scoreCommitHygiene (messages : List String) : ℚ :=
  if messages.length = 0 then 0.2
  else ((messages.filter isGoodCommitMessage).length : ℚ) / (messages.length : ℚ)

/-- scoreContributorHistory, `src/quality.ts` lines 29-33. -/
def scoreContributorHistory (mergedPRs accountAgeDays : ℕ) : ℚ :=
  let history := min 1 ((mergedPRs : ℚ) / 8)
  let age := min 1 ((accountAgeDays : ℚ) / 365)
  0.7 * history + 0.3 * age

/-- scorePRQuality, `src/quality.ts` lines 35-70.  The function takes the
single `input` parameter declared in the source; the recommendation cut-offs
0.75 and 0.45 are hard-coded in line 63 (the `quality_thresholds`
configuration passed as a second argument by the handlers is not part of the
function signature and is dropped). -/
def scorePRQuality (input : PRQualityInput) : PRQualityResult :=
  let diffQuality := scoreDiffQuality input.additions input.deletions input.changedFiles
  let testScore : ℚ := if input.hasTests then 1 else 0.3
  let commitScore := scoreCommitHygiene input.commitMessages
  let contributorScore :=
    scoreContributorHistory input.contributorMergedPRs input.contributorAccountAgeDays
  let ciScore : ℚ := if input.ciPassing then 1 else 0
  let score :=
    0.3 * diffQuality + 0.2 * testScore + 0.15 * commitScore +
      0.15 * contributorScore + 0.2 * ciScore
  let reasons :=
    (if input.hasTests then [] else ["No test changes detected"]) ++
    (if input.ciPassing then [] else ["CI is not passing"]) ++
    (if 12 < input.changedFiles ∨ 700 < input.additions + input.deletions then
      ["Diff is broad and may need scoping"] else [])
  let recommendation : Rec :=
    if 0.75 ≤ score then .approve else if 0.45 ≤ score then .review else .reject
  { score := score, recommendation := recommendation, reasons := reasons }

/-! ## Rate limiting (`src/db.ts` checkRateLimit, `src/rate-limit.ts`) -/

/-- Hourly counter table `rate_limits`: a total map from `(repo, hour
bucket)` to the call count (absent rows read 0). -/
abbrev HourlyCounters := String × String → ℕ

/-- checkRateLimit, `src/db.ts` lines 507-523: insert-or-increment the
counter of the current hour bucket, then admit when the post-increment count
is within the budget.  The current UTC hour bucket (the `YYYY-MM-DDTHH`
slice of `new Date()`) is passed as the `hour` parameter. -/
def checkRateLimit (counts : HourlyCounters) (repo hour : String) (maxPerHour : ℕ) :
    Bool × HourlyCounters :=
  let newCount := counts (repo, hour) + 1
  let counts' : HourlyCounters := fun k => if k = (repo, hour) then newCount else counts k
  (decide (newCount ≤ maxPerHour), counts')

/-- RateLimitResult, `src/rate-limit.ts`. -/
structure RateLimitResult where
  allowed : Bool
  remaining : ℕ
  used : ℕ
deriving DecidableEq, Repr

/-- Daily counter table `installation_rate_limits`: a total map from
`(installation id, date bucket)` to the count. -/
abbrev DailyCounters := ℕ × String → ℕ

/-- checkInstallationRateLimit, `src/rate-limit.ts` lines 240-258: a pure
read, no mutation.  `remaining` uses `Math.max(0, ...)`, which is `ℕ`
subtraction.  The current UTC date (`YYYY-MM-DD`) is the `date` parameter. -/
def checkInstallationRateLimit (counts : DailyCounters) (installationId : ℕ)
    (date : String) (dailyLimit : ℕ) : RateLimitResult :=
  let used := counts (installationId, date)
  { allowed := decide (used < dailyLimit), remaining := dailyLimit - used, used := used }

/-- incrementInstallationRateLimit, `src/rate-limit.ts` lines 261-274:
insert-or-increment the daily counter. -/
def incrementInstallationRateLimit (counts : DailyCounters) (installationId : ℕ)
    (date : String) : DailyCounters :=
  fun k => if k = (installationId, date) then counts (installationId, date) + 1 else counts k

/-! ## VectorStore lifecycle (`src/db.ts`)

The `embeddings` table is modelled as an association list keyed by
`(repo, type, number)` (unique per the schema), kept in `created_at DESC`
order: upsert refreshes `created_at`, so it removes any previous row for the
key and prepends; `deactivate`/`reactivate` update in place. -/

/-- Identity key of an embedding row. -/
abbrev EmbKey := String × ItemType × ℕ

/-- A stored `embeddings` row (the key is held separately). -/
structure StoredEmbedding where
  title : String
  body : String
  diffSummary : String
  embedding : List ℚ
  active : Bool
deriving DecidableEq, Repr

/-- The embeddings table, most recently upserted first. -/
abbrev VectorStore := List (EmbKey × StoredEmbedding)

/-- Identity key of an `EmbeddingRecord`. -/
def embKey (r : EmbeddingRecord) : EmbKey := (r.repo, r.type, r.number)

/-- upsertEmbedding, `src/db.ts` lines 213-231: full overwrite of all text
and vector fields, always sets `active = 1`, refreshes `created_at`. -/
def upsertEmbedding (store : VectorStore) (r : EmbeddingRecord) : VectorStore :=
  (embKey r,
    { title := r.title, body := r.body, diffSummary := r.diffSummary,
      embedding := r.embedding, active := true }) ::
    store.filter (fun e => decide (e.1 ≠ embKey r))

/-- deactivateEmbedding, `src/db.ts` lines 288-292: `UPDATE ... SET
active = 0 WHERE` the key matches (a no-op when the row is absent). -/
def deactivateEmbedding (store : VectorStore) (repo : String) (type : ItemType)
    (number : ℕ) : VectorStore :=
  store.map (fun e =>
    if e.1 = (repo, type, number) then (e.1, { e.2 with active := false }) else e)

/-- reactivateEmbedding, `src/db.ts` lines 295-300: `UPDATE ... SET
active = 1 WHERE` the key matches and `active = 0`; returns
`result.changes > 0`, i.e. whether a genuinely inactive row was flipped. -/
def reactivateEmbedding (store : VectorStore) (repo : String) (type : ItemType)
    (number : ℕ) : Bool × VectorStore :=
  (store.any (fun e => decide (e.1 = (repo, type, number)) && !e.2.active),
   store.map (fun e =>
     if e.1 = (repo, type, number) ∧ e.2.active = false then
       (e.1, { e.2 with active := true }) else e))

/-- listEmbeddings, `src/db.ts` lines 234-255: active rows of the repo,
`created_at DESC` (i.e. list order here), limited to `limit` (default 500). -/
def listEmbeddings (store : VectorStore) (repo : String) (limit : ℕ := 500) :
    List EmbeddingRecord :=
  ((store.filter (fun e => decide (e.1.1 = repo) && e.2.active)).take limit).map
    (fun e =>
      { repo := e.1.1, type := e.1.2.1, number := e.1.2.2, title := e.2.title,
        body := e.2.body, diffSummary := e.2.diffSummary, embedding := e.2.embedding })

/-- Whether the key appears in the active listing (membership in
`listEmbeddings` output, disregarding the row limit). -/
def isActiveEmbedding (store : VectorStore) (k : EmbKey) : Bool :=
  store.any (fun e => decide (e.1 = k) && e.2.active)

/-! ## AnalysisStore (`src/db.ts` upsertAnalysis / getAnalysis) -/

/-- The analyses table, keyed by `(repo, type, number)` (unique). -/
abbrev AnalysisStore := List (EmbKey × AnalysisRecord)

/-- upsertAnalysis, `src/db.ts` lines 302-327: full replace on conflict. -/
def upsertAnalysis (store : AnalysisStore) (rec : AnalysisRecord) : AnalysisStore :=
  ((rec.repo, rec.type, rec.number), rec) ::
    store.filter (fun e => decide (e.1 ≠ (rec.repo, rec.type, rec.number)))

/-- getAnalysis, `src/db.ts` lines 329-355: lookup by key, `none` when the
row is absent. -/
def getAnalysis (store : AnalysisStore) (repo : String) (type : ItemType)
    (number : ℕ) : Option AnalysisRecord :=
  (store.find? (fun e => decide (e.1 = (repo, type, number)))).map (fun e => e.2)

/-! ## Best-candidate selection (`src/handlers/pr.ts` pickBestPR) -/

/-- The candidate score used by `pickBestPR`:
`getAnalysis(db, fullRepo, "pr", candidate.number)?.prQualityScore ?? 0`,
i.e. 0 when no analysis row exists or its stored score is null. -/
def candidatePRScore (analyses : AnalysisStore) (fullRepo : String) (n : ℕ) : ℚ :=
  match getAnalysis analyses fullRepo ItemType.pr n with
  | none => 0
  | some a => a.prQualityScore.getD 0

/-- The candidate loop of `pickBestPR` (`src/handlers/pr.ts` lines 108-115):
strict greater-than comparison, so the earlier-seen best is kept on ties. -/
def pickLoop (analyses : AnalysisStore) (fullRepo : String) :
    List DuplicateMatch → ℕ → ℚ → ℕ × ℚ
  | [], bestNumber, bestScore => (bestNumber, bestScore)
  | c :: rest, bestNumber, bestScore =>
    let candidateScore := candidatePRScore analyses fullRepo c.number
    if bestScore < candidateScore then pickLoop analyses fullRepo rest c.number candidateScore
    else pickLoop analyses fullRepo rest bestNumber bestScore

/-- pickBestPR, `src/handlers/pr.ts` lines 95-118. -/
def pickBestPR (currentNumber : ℕ) (duplicates : List DuplicateMatch)
    (currentQuality : PRQualityResult) (analyses : AnalysisStore)
    (fullRepo : String) : ℕ :=
  let prCandidates := duplicates.filter (fun item => decide (item.type = ItemType.pr))
  if prCandidates.length = 0 then currentNumber
  else (pickLoop analyses fullRepo prCandidates currentNumber currentQuality.score).1

/-! ## Configured quality thresholds -/

/-- The `quality_thresholds` configuration shape of `src/types.ts` /
`src/config.ts` (defaults: approve 0.75, reject 0.45). -/
structure QualityThresholds where
  approve : ℚ
  reject : ℚ
deriving DecidableEq, Repr

/-- The recommendation rule the spec states for claim C1 — approve when the
score reaches the configured per-tenant approve threshold, reject when it is
below the configured reject threshold, review otherwise.  This is the
spec-side definition used to compare with the hard-coded rule inside
`scorePRQuality`. -/
def specRecommendation (score : ℚ) (t : QualityThresholds) : Rec :=
  if t.approve ≤ score then .approve else if score < t.reject then .reject else .review

/-! ## Spec-side renderings of the quality-score sentences (claim C9)

`claim…` definitions follow the claim's wording (low-effort patterns match
"as the entire message"); `amended…` definitions state the corrected
characterization (the `wip` and `fix\s*stuff` patterns are unanchored
substring matches, only `update`/`changes` are whole-message). -/

/-- The bad-message rule exactly as the claim words it: trimmed length
outside [8, 90], or the message equals a low-effort pattern ("wip",
"fix stuff", "update", "changes") as the entire message, case-insensitively. -/
def claimIsBadMessage (msg : String) : Bool :=
  (strTrim msg).length < 8 || 90 < (strTrim msg).length ||
  strLower (strTrim msg) == "wip" || strLower (strTrim msg) == "fix stuff" ||
  strLower (strTrim msg) == "update" || strLower (strTrim msg) == "changes"

/-- Commit hygiene under the claim's bad-message rule. -/
def claimCommitHygiene (messages : List String) : ℚ :=
  if messages.length = 0 then 0.2
  else ((messages.filter (fun m => !claimIsBadMessage m)).length : ℚ) / (messages.length : ℚ)

/-- The total score formula exactly as the claim states it (weights
0.3/0.2/0.15/0.15/0.2 over the spec sub-scores, with the claim's commit
hygiene). -/
def claimQualityScore (input : PRQualityInput) : ℚ :=
  0.3 * scoreDiffQuality input.additions input.deletions input.changedFiles +
  0.2 * (if input.hasTests then 1 else 0.3) +
  0.15 * claimCommitHygiene input.commitMessages +
  0.15 * scoreContributorHistory input.contributorMergedPRs input.contributorAccountAgeDays +
  0.2 * (if input.ciPassing then 1 else 0)

/-- The amended bad-message rule: trimmed length outside [8, 90], or the
message contains "wip" (case-insensitive substring), or contains "fix"
followed by optional whitespace and "stuff", or equals "update"/"changes"
as the entire message, case-insensitively. -/
def amendedIsBadMessage (msg : String) : Bool :=
  (strTrim msg).length < 8 || 90 < (strTrim msg).length ||
  containsWip (strLower (strTrim msg)).data ||
  containsFixStuff (strLower (strTrim msg)).data ||
  strLower (strTrim msg) == "update" || strLower (strTrim msg) == "changes"

/-- Commit hygiene under the amended bad-message rule. -/
def amendedCommitHygiene (messages : List String) : ℚ :=
  if messages.length = 0 then 0.2
  else ((messages.filter (fun m => !amendedIsBadMessage m)).length : ℚ) / (messages.length : ℚ)

/-- The total score formula with the amended commit hygiene. -/
def amendedQualityScore (input : PRQualityInput) : ℚ :=
  0.3 * scoreDiffQuality input.additions input.deletions input.changedFiles +
  0.2 * (if input.hasTests then 1 else 0.3) +
  0.15 * amendedCommitHygiene input.commitMessages +
  0.15 * scoreContributorHistory input.contributorMergedPRs input.contributorAccountAgeDays +
  0.2 * (if input.ciPassing then 1 else 0)

/-! ## Issue pipeline (`src/handlers/issue.ts`)

The handler is modelled as a pure state transformer on `Db` emitting a
trace of external `Effect`s.  The embedding provider is a parameter
`provider : String → List ℚ` giving the vector the provider would return
for a text (the empty list is the failure sentinel, folding in `withRetry`
returning null); `clientAvailable` models whether `createOpenAIClient`
succeeds.  Comment markdown is abstracted to the data it is rendered from. -/

/-- LabelConfig, `src/types.ts`. -/
structure LabelConfig where
  duplicate : String
  off_scope : String
  on_track : String
  needs_review : String
  recommended : String
deriving DecidableEq, Repr

/-- The fields of `PRGuardConfig` (`src/types.ts` / `src/config.ts`) read by
the issue handler (presentation-only fields are omitted). -/
structure PRGuardConfig where
  vision : String
  duplicate_threshold : ℚ
  labels : LabelConfig
  trusted_users : List String
  quality_thresholds : QualityThresholds
  dry_run : Bool
  skip_bots : Bool
  daily_limit : ℕ
  openai_api_key : String
deriving DecidableEq, Repr

/-- Default label names, `src/config.ts` `defaultConfig.labels`. -/
def defaultLabels : LabelConfig :=
  { duplicate := "prguard:duplicate", off_scope := "prguard:off-scope",
    on_track := "prguard:on-track", needs_review := "prguard:needs-review",
    recommended := "prguard:recommended" }

/-- OPENAI_BUDGET_PER_HOUR, `src/util.ts`. -/
def OPENAI_BUDGET_PER_HOUR : ℕ := 60

/-- isBot, `src/util.ts`. -/
def isBot (login : String) (userType : Option String) : Bool :=
  if userType = some "Bot" then true
  else strEndsWith login "[bot]" || login == "dependabot" || login == "renovate"

/-- normalizeBody, `src/util.ts`: `body ?? ""`. -/
def normalizeBody (body : Option String) : String := body.getD ""

/-- buildEmbeddingInput, `src/embed.ts` lines 73-76: trim the three parts,
drop empty ones, join with blank lines. -/
def buildEmbeddingInput (title body : String) (diffSummary : String := "") : String :=
  joinSep "\n\n"
    (([strTrim title, strTrim body,
        strTrim ⟨diffSummary.data.take 2000⟩]).filter (fun s => !s.data.isEmpty))

/-- Data a pipeline comment is rendered from (`src/comment.ts` and the
inline daily-limit message of `src/handlers/issue.ts`). -/
inductive CommentBody where
  | summary (duplicates : List DuplicateMatch)
  | degraded
  | dailyLimitNotice (used : ℕ) (limit : ℕ)
deriving DecidableEq, Repr

/-- Externally observable actions of one pipeline run. -/
inductive Effect where
  | logInfo (action : String)
  | logWarn (action : String)
  | ensureLabelsCalled
  | providerCall (text : String)
  | labelApply (labels : List String)
  | commentUpsert (body : CommentBody)
  | metric (name : String)
deriving DecidableEq, Repr

/-- upsertSummaryComment, `src/util.ts`: in dry-run it only logs; otherwise
it locates the marker comment and updates it, or creates one (one
comment-upsert effect). -/
def upsertSummaryCommentEff (dryRun : Bool) (body : CommentBody) : List Effect :=
  if dryRun then [.logInfo "dry_run_comment"] else [.commentUpsert body]

/-- getEmbedding, `src/embed.ts` lines 50-71: blank input short-circuits to
the empty vector with no provider call; otherwise one provider call whose
result (possibly the empty sentinel) is returned. -/
def getEmbeddingRun (text : String) (provider : String → List ℚ) :
    List ℚ × List Effect :=
  let input := strTrim text
  if input.data.isEmpty then ([], [])
  else (provider input, [.providerCall input])

/-- The shared durable state: embeddings, analyses and both rate-limit
counter families (`src/db.ts` schema). -/
structure Db where
  embeddings : VectorStore
  analyses : AnalysisStore
  hourly : HourlyCounters
  daily : DailyCounters

/-- The issue webhook payload fields read by `handleIssue`. -/
structure IssuePayload where
  owner : String
  repoName : String
  number : ℕ
  title : String
  body : Option String
  authorLogin : String
  authorType : Option String
  isPullRequest : Bool
  installationId : Option ℕ
deriving DecidableEq, Repr

/-- handleDegradedIssue, `src/handlers/issue.ts` lines 190-224: ensure and
apply the needs-review label (skipped in dry-run), upsert the degraded
marker comment, log. -/
def handleDegradedIssueEff (cfg : PRGuardConfig) : List Effect :=
  (if cfg.dry_run then []
   else [.ensureLabelsCalled, .labelApply [cfg.labels.needs_review]]) ++
  upsertSummaryCommentEff cfg.dry_run .degraded ++
  [.logWarn "issue.degraded"]

/-- The effect tail shared by both degraded exits of `handleIssue`
(lines 96-102 and 109-115): degraded outcome plus the two counters. -/
def degradedTail (cfg : PRGuardConfig) : List Effect :=
  handleDegradedIssueEff cfg ++ [.metric "openai_degraded_total", .metric "issues_analyzed_total"]

/-- The completed (non-degraded) remainder of `handleIssue` (lines 117-187):
VectorStore upsert, duplicate detection over the active listing, analysis
upsert, labels, summary comment, daily budget increment, counters. -/
def issueFullPath (cfg : PRGuardConfig) (p : IssuePayload) (db1 : Db)
    (vec : List ℚ) (body date : String) : Db × List Effect :=
  let fullRepo := p.owner ++ "/" ++ p.repoName
  let record : EmbeddingRecord :=
    { repo := fullRepo, type := .issue, number := p.number, title := p.title,
      body := body, diffSummary := "", embedding := vec }
  let db2 := { db1 with embeddings := upsertEmbedding db1.embeddings record }
  let duplicates :=
    findDuplicates record (listEmbeddings db2.embeddings fullRepo) cfg.duplicate_threshold
  let dupEff := if duplicates.isEmpty then [] else [Effect.metric "duplicates_found_total"]
  let analysis : AnalysisRecord :=
    { repo := fullRepo, type := .issue, number := p.number, duplicates := duplicates,
      visionScore := none, visionReasoning := none, recommendation := none,
      prQualityScore := none }
  let db3 := { db2 with analyses := upsertAnalysis db2.analyses analysis }
  let labelsToApply :=
    if 0 < duplicates.length then [cfg.labels.duplicate, cfg.labels.needs_review]
    else [cfg.labels.needs_review]
  let labelEff :=
    if cfg.dry_run then [Effect.logInfo "issue.dry_run_labels"]
    else [Effect.labelApply labelsToApply]
  let commentEff := upsertSummaryCommentEff cfg.dry_run (.summary duplicates)
  let db4 :=
    match p.installationId with
    | some iid => { db3 with daily := incrementInstallationRateLimit db3.daily iid date }
    | none => db3
  (db4,
    dupEff ++ labelEff ++ commentEff ++
      [.metric "issues_analyzed_total", .logInfo "issue.complete"])

/-- The part of `handleIssue` after both rate-limit gates (lines 85-187):
ensure labels, create the client, call the provider, then either degrade or
run the full path.  `db1` already holds the bumped hourly counter. -/
def issueCore (cfg : PRGuardConfig) (p : IssuePayload) (db1 : Db)
    (provider : String → List ℚ) (clientAvailable : Bool) (date : String) :
    Db × List Effect :=
  let ensure := if cfg.dry_run then [] else [Effect.ensureLabelsCalled]
  if clientAvailable then
    let body := normalizeBody p.body
    let input := buildEmbeddingInput p.title body
    let emb := getEmbeddingRun input provider
    let pre := ensure ++ emb.2 ++ [Effect.metric "openai_calls_total"]
    if emb.1.isEmpty then
      (db1, pre ++ [.logWarn "issue.embedding_failed"] ++ degradedTail cfg)
    else
      let out := issueFullPath cfg p db1 emb.1 body date
      (out.1, pre ++ out.2)
  else
    (db1, ensure ++ [.logWarn "issue.openai_unavailable"] ++ degradedTail cfg)

/-- The hourly gate of `handleIssue` (lines 80-83): the check consumes a
slot even when it rejects; rejection stops with a warning log only. -/
def issueAfterGates (cfg : PRGuardConfig) (p : IssuePayload) (db : Db)
    (provider : String → List ℚ) (clientAvailable : Bool) (hour date : String) :
    Db × List Effect :=
  let fullRepo := p.owner ++ "/" ++ p.repoName
  let hc := checkRateLimit db.hourly fullRepo hour OPENAI_BUDGET_PER_HOUR
  let db1 := { db with hourly := hc.2 }
  if hc.1 then issueCore cfg p db1 provider clientAvailable date
  else (db1, [.logWarn "issue.rate_limited"])

/-- handleIssue, `src/handlers/issue.ts` lines 24-187: early return for PR
payloads, trusted/bot gates, the per-installation daily gate (which posts an
explanatory comment), the hourly gate, then the core pipeline. -/
def handleIssue (cfg : PRGuardConfig) (p : IssuePayload) (db : Db)
    (provider : String → List ℚ) (clientAvailable : Bool) (hour date : String) :
    Db × List Effect :=
  if p.isPullRequest then (db, [])
  else if p.authorLogin ∈ cfg.trusted_users then
    (db, [.logInfo "issue.start", .logInfo "issue.skip_trusted"])
  else if cfg.skip_bots && isBot p.authorLogin p.authorType then
    (db, [.logInfo "issue.start", .logInfo "issue.skip_bot"])
  else
    match p.installationId with
    | some iid =>
      let rl := checkInstallationRateLimit db.daily iid date cfg.daily_limit
      if rl.allowed then
        let out := issueAfterGates cfg p db provider clientAvailable hour date
        (out.1, .logInfo "issue.start" :: out.2)
      else
        (db,
          [.logInfo "issue.start", .logWarn "issue.daily_limit"] ++
            upsertSummaryCommentEff cfg.dry_run (.dailyLimitNotice rl.used cfg.daily_limit))
    | none =>
      let out := issueAfterGates cfg p db provider clientAvailable hour date
      (out.1, .logInfo "issue.start" :: out.2)

/-- A concrete configuration holding the defaults of `src/config.ts`,
used by the concrete evaluations below. -/
def sampleConfig : PRGuardConfig :=
  { vision := "", duplicate_threshold := 0.85, labels := defaultLabels,
    trusted_users := [], quality_thresholds := { approve := 0.75, reject := 0.45 },
    dry_run := false, skip_bots := true, daily_limit := 50, openai_api_key := "" }

/-- A concrete issue payload from an ordinary human author. -/
def samplePayload : IssuePayload :=
  { owner := "o", repoName := "r", number := 1, title := "T", body := some "B",
    authorLogin := "alice", authorType := none, isPullRequest := false,
    installationId := none }

/-- A fresh store: no rows, all counters zero. -/
def emptyDb : Db :=
  { embeddings := [], analyses := [], hourly := fun _ => 0, daily := fun _ => 0 }

/-! ## Theorems -/

/-- C7: the hourly collection rate limiter increments the counter of the
current hour bucket on every check regardless of outcome, admits exactly
when the post-increment count is within the budget, admits a fresh bucket
(with a positive budget), and four consecutive checks with budget 3 from an
untouched bucket yield `[true, true, true, false]`. -/
theorem checkRateLimit_spec (counts : HourlyCounters) (repo hour : String)
    (maxPerHour : ℕ) :
    ((checkRateLimit counts repo hour maxPerHour).2 (repo, hour) = counts (repo, hour) + 1) ∧
    ((checkRateLimit counts repo hour maxPerHour).1 = true ↔
      counts (repo, hour) + 1 ≤ maxPerHour) ∧
    (counts (repo, hour) = 0 → 1 ≤ maxPerHour →
      (checkRateLimit counts repo hour maxPerHour).1 = true) ∧
    (counts (repo, hour) = 0 →
      (let r1 := checkRateLimit counts repo hour 3
       let r2 := checkRateLimit r1.2 repo hour 3
       let r3 := checkRateLimit r2.2 repo hour 3
       let r4 := checkRateLimit r3.2 repo hour 3
       [r1.1, r2.1, r3.1, r4.1] = [true, true, true, false])) := by
  refine ⟨?_, ?_, ?_, ?_⟩
  · simp [checkRateLimit]
  · simp [checkRateLimit]
  · intro h0 h1
    simp [checkRateLimit, h0, h1]
  · intro h0
    simp only [checkRateLimit, if_pos rfl, h0]
    norm_num

/-- Witness for C7 at a concrete fresh counter table. -/
theorem checkRateLimit_spec_witness :
    (let counts : HourlyCounters := fun _ => 0
     let r1 := checkRateLimit counts "o/r" "2026-10-11T10" 3
     let r2 := checkRateLimit r1.2 "o/r" "2026-10-11T10" 3
     let r3 := checkRateLimit r2.2 "o/r" "2026-10-11T10" 3
     let r4 := checkRateLimit r3.2 "o/r" "2026-10-11T10" 3
     [r1.1, r2.1, r3.1, r4.1] = [true, true, true, false]) :=
  (checkRateLimit_spec (fun _ => 0) "o/r" "2026-10-11T10" 3).2.2.2 rfl

/-- C8: lifecycle round-trip of the embedding store — after upsert then
deactivate the key is absent from the active listing; after deactivate then
reactivate it is present again and reactivate returned true; reactivate
returns false and changes nothing when every row at the key is already
active (or the key is absent), and returns true only when a genuinely
inactive row exists. -/
theorem embedding_lifecycle_spec (store : VectorStore) (r : EmbeddingRecord)
    (k : EmbKey) :
    (isActiveEmbedding
        (deactivateEmbedding (upsertEmbedding store r) r.repo r.type r.number)
        (embKey r) = false) ∧
    ((reactivateEmbedding
        (deactivateEmbedding (upsertEmbedding store r) r.repo r.type r.number)
        r.repo r.type r.number).1 = true ∧
      isActiveEmbedding
        (reactivateEmbedding
          (deactivateEmbedding (upsertEmbedding store r) r.repo r.type r.number)
          r.repo r.type r.number).2 (embKey r) = true) ∧
    ((∀ e ∈ store, e.1 = k → e.2.active = true) →
      reactivateEmbedding store k.1 k.2.1 k.2.2 = (false, store)) ∧
    ((∀ e ∈ store, e.1 ≠ k) →
      reactivateEmbedding store k.1 k.2.1 k.2.2 = (false, store)) ∧
    ((reactivateEmbedding store k.1 k.2.1 k.2.2).1 = true →
      ∃ e ∈ store, e.1 = k ∧ e.2.active = false) := by
  refine ⟨?_, ⟨?_, ?_⟩, ?_, ?_, ?_⟩
  · simp only [isActiveEmbedding, List.any_eq_false]
    intro e he
    simp only [deactivateEmbedding, upsertEmbedding, List.map_cons, List.mem_cons,
      List.mem_map, List.mem_filter] at he
    rcases he with he | he
    · simp only [embKey] at he
      rw [if_pos trivial] at he
      simp [he, embKey]
    · obtain ⟨a, ⟨_, hne⟩, rfl⟩ := he
      simp only [decide_not, Bool.not_eq_eq_eq_not, Bool.not_true,
        decide_eq_false_iff_not] at hne
      have hne' : a.1 ≠ (r.repo, r.type, r.number) := by simpa [embKey] using hne
      rw [if_neg hne']
      simp [embKey, hne']
  · simp [reactivateEmbedding, deactivateEmbedding, upsertEmbedding, embKey]
  · simp [isActiveEmbedding, reactivateEmbedding, deactivateEmbedding, upsertEmbedding, embKey]
  · intro h
    refine Prod.ext ?_ ?_
    · simp only [reactivateEmbedding, List.any_eq_false]
      intro e he
      by_cases hk : e.1 = k
      · simp [hk, h e he hk]
      · simp [hk]
    · simp only [reactivateEmbedding]
      have : ∀ e ∈ store,
          (if e.1 = (k.1, k.2.1, k.2.2) ∧ e.2.active = false then
            (e.1, { e.2 with active := true }) else e) = e := by
        intro e he
        rw [if_neg]
        rintro ⟨hk, hact⟩
        have := h e he (by simpa using hk)
        simp [this] at hact
      rw [List.map_congr_left this]; exact List.map_id _
  · intro h
    refine Prod.ext ?_ ?_
    · simp only [reactivateEmbedding, List.any_eq_false]
      intro e he
      simp [h e he]
    · simp only [reactivateEmbedding]
      have : ∀ e ∈ store,
          (if e.1 = (k.1, k.2.1, k.2.2) ∧ e.2.active = false then
            (e.1, { e.2 with active := true }) else e) = e := by
        intro e he
        rw [if_neg]
        rintro ⟨hk, _⟩
        exact h e he (by simpa using hk)
      rw [List.map_congr_left this]; exact List.map_id _
  · intro h
    simp only [reactivateEmbedding, List.any_eq_true] at h
    obtain ⟨e, he, hp⟩ := h
    simp only [Bool.and_eq_true, decide_eq_true_eq, Bool.not_eq_eq_eq_not, Bool.not_true] at hp
    exact ⟨e, he, by simpa using hp.1, by simpa using hp.2⟩

/-- Witness for C8: reactivating a key with no row at all returns false and
leaves the store unchanged. -/
theorem embedding_lifecycle_spec_witness :
    reactivateEmbedding [] "o/r" ItemType.issue 999 = (false, []) :=
  (embedding_lifecycle_spec [] ⟨"o/r", .issue, 10, "t", "", "", [1]⟩
    ("o/r", ItemType.issue, 999)).2.2.2.1 (by simp)

/-- Filtering twice with the same predicate equals filtering once. -/
theorem filter_idem {α : Type} (p : α → Bool) (l : List α) :
    (l.filter p).filter p = l.filter p := by
  induction l with
  | nil => rfl
  | cons x xs ih =>
    by_cases h : p x = true
    · simp [List.filter_cons, h, ih]
    · simp [List.filter_cons, h, ih]

/-- C4: best-candidate selection considers only same-kind ("pr") duplicate
matches; a candidate's score is its persisted analysis score, defaulting to
0 when the row is absent or the stored score is null; the strict
greater-than comparison makes the earlier-seen candidate (initially the
current item) win exact ties; with no same-kind duplicates the current
item's number is returned, and a candidate whose persisted score strictly
exceeds the current score wins. -/
theorem pickBestPR_spec (cur : ℕ) (dups : List DuplicateMatch) (q : PRQualityResult)
    (analyses : AnalysisStore) (fullRepo : String) :
    (pickBestPR cur dups q analyses fullRepo =
      pickBestPR cur (dups.filter (fun d => decide (d.type = ItemType.pr))) q
        analyses fullRepo) ∧
    ((∀ d ∈ dups, d.type ≠ ItemType.pr) → pickBestPR cur dups q analyses fullRepo = cur) ∧
    (∀ n, getAnalysis analyses fullRepo ItemType.pr n = none →
      candidatePRScore analyses fullRepo n = 0) ∧
    (∀ n a, getAnalysis analyses fullRepo ItemType.pr n = some a →
      a.prQualityScore = none → candidatePRScore analyses fullRepo n = 0) ∧
    (∀ d, d.type = ItemType.pr → candidatePRScore analyses fullRepo d.number ≤ q.score →
      pickBestPR cur [d] q analyses fullRepo = cur) ∧
    (∀ d, d.type = ItemType.pr → q.score < candidatePRScore analyses fullRepo d.number →
      pickBestPR cur [d] q analyses fullRepo = d.number) ∧
    (∀ d1 d2, d1.type = ItemType.pr → d2.type = ItemType.pr →
      candidatePRScore analyses fullRepo d2.number ≤
        candidatePRScore analyses fullRepo d1.number →
      q.score < candidatePRScore analyses fullRepo d1.number →
      pickBestPR cur [d1, d2] q analyses fullRepo = d1.number) := by
  refine ⟨?_, ?_, ?_, ?_, ?_, ?_, ?_⟩
  · simp only [pickBestPR, filter_idem]
  · intro h
    have hnil : dups.filter (fun d => decide (d.type = ItemType.pr)) = [] := by
      simp only [List.filter_eq_nil_iff]
      intro d hd
      simp [h d hd]
    simp [pickBestPR, hnil]
  · intro n h
    simp [candidatePRScore, h]
  · intro n a h hnone
    simp [candidatePRScore, h, hnone]
  · intro d hd hle
    simp [pickBestPR, List.filter_cons, hd, pickLoop, not_lt.2 hle]
  · intro d hd hlt
    simp [pickBestPR, List.filter_cons, hd, pickLoop, hlt, not_lt.2 (le_of_lt hlt)]
  · intro d1 d2 hd1 hd2 hle hlt
    simp [pickBestPR, List.filter_cons, hd1, hd2, pickLoop, hlt, not_lt.2 hle]

/-- Witness for C4 (the examples of spec section 8): a current score of 0.5
against one same-kind duplicate with persisted score 0.9 yields the
duplicate's id; with no same-kind duplicates the current id is returned. -/
theorem pickBestPR_spec_witness :
    (pickBestPR 1 [⟨ItemType.pr, 2, 0.9, "dup"⟩] ⟨0.5, .review, []⟩
      [(("o/r", ItemType.pr, 2),
        ⟨"o/r", .pr, 2, [], none, none, none, some 0.9⟩)] "o/r" = 2) ∧
    (pickBestPR 1 [] ⟨0.5, .review, []⟩
      [(("o/r", ItemType.pr, 2),
        ⟨"o/r", .pr, 2, [], none, none, none, some 0.9⟩)] "o/r" = 1) :=
  ⟨(pickBestPR_spec 1 [⟨ItemType.pr, 2, 0.9, "dup"⟩] ⟨0.5, .review, []⟩
      [(("o/r", ItemType.pr, 2),
        ⟨"o/r", .pr, 2, [], none, none, none, some 0.9⟩)] "o/r").2.2.2.2.2.1
      ⟨ItemType.pr, 2, 0.9, "dup"⟩ rfl
      (by norm_num [candidatePRScore, getAnalysis, List.find?]),
    (pickBestPR_spec 1 [] ⟨0.5, .review, []⟩
      [(("o/r", ItemType.pr, 2),
        ⟨"o/r", .pr, 2, [], none, none, none, some 0.9⟩)] "o/r").2.1
      (by simp)⟩

/-- C1: the handlers pass the per-tenant `quality_thresholds` configuration
to `scorePRQuality`, but the function signature declares only the single
`input` parameter and the cut-offs 0.75/0.45 are hard-coded, so the
configured thresholds never influence the recommendation.  Evaluated at the
failing input: a PR scoring 0.755 is labelled "approve" by the code, while
the spec's rule under the configured thresholds (approve 0.8, reject 0.45)
requires "review". -/
theorem scorePRQuality_ignores_configured_thresholds :
    (scorePRQuality
      { additions := 0, deletions := 0, changedFiles := 1, hasTests := true,
        commitMessages := ["fix(parser): handle edge case"],
        contributorMergedPRs := 8, contributorAccountAgeDays := 0,
        ciPassing := false }).score = 0.755 ∧
    (scorePRQuality
      { additions := 0, deletions := 0, changedFiles := 1, hasTests := true,
        commitMessages := ["fix(parser): handle edge case"],
        contributorMergedPRs := 8, contributorAccountAgeDays := 0,
        ciPassing := false }).recommendation = Rec.approve ∧
    specRecommendation 0.755 { approve := 0.8, reject := 0.45 } = Rec.review := by
  have hg : isGoodCommitMessage "fix(parser): handle edge case" = true := by decide
  refine ⟨?_, ?_, ?_⟩
  · simp only [scorePRQuality]
    norm_num [scoreDiffQuality, scoreCommitHygiene, scoreContributorHistory,
      List.filter_cons, hg, max_def]
  · simp only [scorePRQuality]
    norm_num [scoreDiffQuality, scoreCommitHygiene, scoreContributorHistory,
      List.filter_cons, hg, max_def]
  · norm_num [specRecommendation]

/-- The source's good-message test is the negation of the amended
bad-message rule. -/
theorem isGoodCommitMessage_eq (m : String) :
    isGoodCommitMessage m = !amendedIsBadMessage m := by
  simp only [isGoodCommitMessage, amendedIsBadMessage]
  cases hA : decide ((strTrim m).length < 8) <;>
    cases hB : decide (90 < (strTrim m).length) <;>
      simp [hA, hB]

/-- The source's commit hygiene equals the amended-spec commit hygiene. -/
theorem scoreCommitHygiene_eq_amended (msgs : List String) :
    scoreCommitHygiene msgs = amendedCommitHygiene msgs := by
  unfold scoreCommitHygiene amendedCommitHygiene
  rw [List.filter_congr (fun m _ => isGoodCommitMessage_eq m)]

/-- The diff-quality sub-score is bounded in [0, 1]. -/
theorem scoreDiffQuality_bounds (a d f : ℕ) :
    0 ≤ scoreDiffQuality a d f ∧ scoreDiffQuality a d f ≤ 1 := by
  simp only [scoreDiffQuality]
  have h0 : (0 : ℚ) ≤ ((a : ℚ) + (d : ℚ)) / 350 := by positivity
  have hls1 : (0 : ℚ) ≤ max 0 (1 - ((a : ℚ) + (d : ℚ)) / 350) := le_max_left _ _
  have hls2 : max (0 : ℚ) (1 - ((a : ℚ) + (d : ℚ)) / 350) ≤ 1 := by
    apply max_le <;> [norm_num; linarith]
  by_cases hf : f ≤ 8
  · simp only [if_pos hf]
    constructor <;> nlinarith
  · simp only [if_neg hf]
    have h8 : (8 : ℚ) ≤ (f : ℚ) := by
      exact_mod_cast le_of_lt (Nat.lt_of_not_le hf)
    have hq : (0 : ℚ) ≤ ((f : ℚ) - 8) / 20 := by
      apply div_nonneg <;> linarith
    have hfs1 : (0 : ℚ) ≤ max 0 (1 - ((f : ℚ) - 8) / 20) := le_max_left _ _
    have hfs2 : max (0 : ℚ) (1 - ((f : ℚ) - 8) / 20) ≤ 1 := by
      apply max_le <;> [norm_num; linarith]
    constructor <;> nlinarith

/-- The commit-hygiene sub-score is bounded in [0, 1]. -/
theorem scoreCommitHygiene_bounds (msgs : List String) :
    0 ≤ scoreCommitHygiene msgs ∧ scoreCommitHygiene msgs ≤ 1 := by
  unfold scoreCommitHygiene
  by_cases h : msgs.length = 0
  · simp only [if_pos h]
    norm_num
  · simp only [if_neg h]
    have hpos : (0 : ℚ) < (msgs.length : ℚ) := by
      exact_mod_cast Nat.pos_of_ne_zero h
    constructor
    · positivity
    · rw [div_le_one hpos]
      exact_mod_cast List.length_filter_le _ _

/-- The contributor-history sub-score is bounded in [0, 1]. -/
theorem scoreContributorHistory_bounds (m a : ℕ) :
    0 ≤ scoreContributorHistory m a ∧ scoreContributorHistory m a ≤ 1 := by
  simp only [scoreContributorHistory]
  have h1 : (0 : ℚ) ≤ min 1 ((m : ℚ) / 8) := le_min (by norm_num) (by positivity)
  have h2 : min (1 : ℚ) ((m : ℚ) / 8) ≤ 1 := min_le_left _ _
  have h3 : (0 : ℚ) ≤ min 1 ((a : ℚ) / 365) := le_min (by norm_num) (by positivity)
  have h4 : min (1 : ℚ) ((a : ℚ) / 365) ≤ 1 := min_le_left _ _
  constructor <;> nlinarith

/-- C9 counterexample: the claim says a message is bad exactly when its
trimmed length leaves [8, 90] or it matches a low-effort pattern as the
entire message; but the source tests `/wip/i` as a substring, so the
28-character message "Add wiper blade animation" is counted bad (hygiene 0)
although the claim rates it good (hygiene 1), and the resulting total
scores differ (0.7 vs 0.85). -/
theorem commitHygiene_whole_message_claim_false :
    scoreCommitHygiene ["Add wiper blade animation"] = 0 ∧
    claimIsBadMessage "Add wiper blade animation" = false ∧
    claimCommitHygiene ["Add wiper blade animation"] = 1 ∧
    (scorePRQuality
      { additions := 0, deletions := 0, changedFiles := 1, hasTests := true,
        commitMessages := ["Add wiper blade animation"],
        contributorMergedPRs := 0, contributorAccountAgeDays := 0,
        ciPassing := true }).score = 0.7 ∧
    claimQualityScore
      { additions := 0, deletions := 0, changedFiles := 1, hasTests := true,
        commitMessages := ["Add wiper blade animation"],
        contributorMergedPRs := 0, contributorAccountAgeDays := 0,
        ciPassing := true } = 0.85 := by
  have hbad : isGoodCommitMessage "Add wiper blade animation" = false := by decide
  have hclaim : claimIsBadMessage "Add wiper blade animation" = false := by decide
  refine ⟨?_, hclaim, ?_, ?_, ?_⟩
  · simp [scoreCommitHygiene, List.filter_cons, hbad]
  · norm_num [claimCommitHygiene, List.filter_cons, hclaim]
  · simp only [scorePRQuality]
    norm_num [scoreDiffQuality, scoreCommitHygiene, scoreContributorHistory,
      List.filter_cons, hbad, max_def]
  · norm_num [claimQualityScore, claimCommitHygiene, scoreDiffQuality,
      scoreContributorHistory, List.filter_cons, hclaim, max_def]

/-- C9 (amended): the score equals the claimed weighted formula
0.3·diffQuality + 0.2·testScore + 0.15·commitHygiene +
0.15·contributorHistory + 0.2·ciScore with commit hygiene the fraction of
good messages (0.2 with no messages) under the amended bad-message rule —
trimmed length outside [8, 90], "wip" as a case-insensitive substring,
"fix" + optional whitespace + "stuff" as a substring, or exactly
"update"/"changes" as the entire message — and the score lies in [0, 1]. -/
theorem scorePRQuality_formula_and_range (input : PRQualityInput) :
    (scorePRQuality input).score = amendedQualityScore input ∧
    0 ≤ (scorePRQuality input).score ∧ (scorePRQuality input).score ≤ 1 := by
  have hdq := scoreDiffQuality_bounds input.additions input.deletions input.changedFiles
  have hch := scoreCommitHygiene_bounds input.commitMessages
  have hco := scoreContributorHistory_bounds input.contributorMergedPRs
    input.contributorAccountAgeDays
  have hts : (0 : ℚ) ≤ (if input.hasTests then (1 : ℚ) else 0.3) ∧
      (if input.hasTests then (1 : ℚ) else 0.3) ≤ 1 := by
    split <;> norm_num
  have hci : (0 : ℚ) ≤ (if input.ciPassing then (1 : ℚ) else 0) ∧
      (if input.ciPassing then (1 : ℚ) else 0) ≤ 1 := by
    split <;> norm_num
  refine ⟨?_, ?_, ?_⟩
  · simp only [scorePRQuality, amendedQualityScore, scoreCommitHygiene_eq_amended]
  · simp only [scorePRQuality]
    linarith [hdq.1, hch.1, hco.1, hts.1, hci.1]
  · simp only [scorePRQuality]
    linarith [hdq.2, hch.2, hco.2, hts.2, hci.2]

/-- Membership is preserved by one insertion step of the stable sort. -/
theorem mem_insertDesc (x a : DuplicateMatch) (l : List DuplicateMatch) :
    a ∈ insertDesc x l ↔ a = x ∨ a ∈ l := by
  induction l with
  | nil => simp [insertDesc]
  | cons y ys ih =>
    simp only [insertDesc]
    split
    · simp [List.mem_cons]
    · simp only [List.mem_cons, ih]
      tauto

/-- Membership is preserved by the stable sort. -/
theorem mem_sortBySimilarityDesc (a : DuplicateMatch) (l : List DuplicateMatch) :
    a ∈ sortBySimilarityDesc l ↔ a ∈ l := by
  induction l with
  | nil => simp [sortBySimilarityDesc]
  | cons x xs ih => simp [sortBySimilarityDesc, mem_insertDesc, ih]

/-- Inserting into a descending-sorted list keeps it descending-sorted. -/
theorem pairwise_insertDesc (x : DuplicateMatch) (l : List DuplicateMatch)
    (h : l.Pairwise (fun a b => b.similarity ≤ a.similarity)) :
    (insertDesc x l).Pairwise (fun a b => b.similarity ≤ a.similarity) := by
  induction l with
  | nil => simp [insertDesc]
  | cons y ys ih =>
    obtain ⟨hy, hys⟩ := List.pairwise_cons.mp h
    simp only [insertDesc]
    by_cases hc : y.similarity ≤ x.similarity
    · rw [if_pos hc, List.pairwise_cons]
      refine ⟨?_, h⟩
      intro b hb
      rcases List.mem_cons.mp hb with rfl | hb
      · exact hc
      · exact le_trans (hy b hb) hc
    · rw [if_neg hc, List.pairwise_cons]
      refine ⟨?_, ih hys⟩
      intro b hb
      rcases (mem_insertDesc x b ys).mp hb with rfl | hb
      · exact le_of_lt (lt_of_not_le hc)
      · exact hy b hb

/-- The stable sort produces a descending-sorted list. -/
theorem pairwise_sortBySimilarityDesc (l : List DuplicateMatch) :
    (sortBySimilarityDesc l).Pairwise (fun a b => b.similarity ≤ a.similarity) := by
  induction l with
  | nil => simp [sortBySimilarityDesc]
  | cons x xs ih => exact pairwise_insertDesc x _ ih

/-- Restricting to one similarity value, an insertion step either prepends
the inserted element (when it has that similarity) or leaves the
restriction unchanged: the passed-over elements all have strictly larger
similarity. -/
theorem filter_insertDesc (x : DuplicateMatch) (l : List DuplicateMatch) (s : ℚ) :
    (insertDesc x l).filter (fun m => decide (m.similarity = s)) =
      if x.similarity = s then
        x :: l.filter (fun m => decide (m.similarity = s))
      else l.filter (fun m => decide (m.similarity = s)) := by
  induction l with
  | nil =>
    by_cases hx : x.similarity = s <;> simp [insertDesc, List.filter_cons, hx]
  | cons y ys ih =>
    by_cases hc : y.similarity ≤ x.similarity
    · simp only [insertDesc, if_pos hc]
      by_cases hx : x.similarity = s <;> simp [List.filter_cons, hx]
    · simp only [insertDesc, if_neg hc]
      by_cases hy : y.similarity = s
      · have hx : x.similarity ≠ s := by
          intro hxx
          exact hc (by rw [hxx, hy])
        simp [List.filter_cons, hy, hx, ih]
      · by_cases hx : x.similarity = s <;> simp [List.filter_cons, hy, hx, ih]

/-- Stability of the sort: the elements of any one similarity value appear
in the sorted output exactly in their input order. -/
theorem filter_sortBySimilarityDesc (l : List DuplicateMatch) (s : ℚ) :
    (sortBySimilarityDesc l).filter (fun m => decide (m.similarity = s)) =
      l.filter (fun m => decide (m.similarity = s)) := by
  induction l with
  | nil => rfl
  | cons x xs ih =>
    simp only [sortBySimilarityDesc, filter_insertDesc, ih, List.filter_cons]
    by_cases hx : x.similarity = s <;> simp [hx]

/-- C6: `findDuplicates` excludes exactly the candidates whose kind and id
both equal the query's (a same-id candidate of a different kind is kept
when it reaches the threshold); every returned entry has similarity at
least the threshold; the result is sorted by similarity descending; and
ties keep candidate insertion order (the restriction of the output to any
one similarity value equals the restriction of the pre-sort candidate
list). -/
theorem findDuplicates_spec (current : EmbeddingRecord)
    (existing : List EmbeddingRecord) (threshold : ℚ) :
    (∀ m ∈ findDuplicates current existing threshold,
      ¬(m.type = current.type ∧ m.number = current.number)) ∧
    (∀ item ∈ existing,
      ¬(item.type = current.type ∧ item.number = current.number) →
      threshold ≤ cosineSimilarity current.embedding item.embedding →
      toMatch current item ∈ findDuplicates current existing threshold) ∧
    (∀ m ∈ findDuplicates current existing threshold, threshold ≤ m.similarity) ∧
    (findDuplicates current existing threshold).Pairwise
      (fun a b => b.similarity ≤ a.similarity) ∧
    (∀ s, (findDuplicates current existing threshold).filter
        (fun m => decide (m.similarity = s)) =
      (duplicateCandidates current existing threshold).filter
        (fun m => decide (m.similarity = s))) := by
  refine ⟨?_, ?_, ?_, ?_, ?_⟩
  · intro m hm
    rw [findDuplicates, mem_sortBySimilarityDesc] at hm
    simp only [duplicateCandidates, List.mem_filter, List.mem_map,
      decide_eq_true_eq] at hm
    obtain ⟨⟨item, ⟨_, hni⟩, rfl⟩, _⟩ := hm
    simpa [toMatch] using hni
  · intro item hitem hni hth
    rw [findDuplicates, mem_sortBySimilarityDesc]
    simp only [duplicateCandidates, List.mem_filter, List.mem_map,
      decide_eq_true_eq]
    exact ⟨⟨item, ⟨hitem, by simpa using hni⟩, rfl⟩, by simpa [toMatch] using hth⟩
  · intro m hm
    rw [findDuplicates, mem_sortBySimilarityDesc] at hm
    simp only [duplicateCandidates, List.mem_filter, decide_eq_true_eq] at hm
    exact hm.2
  · exact pairwise_sortBySimilarityDesc _
  · intro s
    exact filter_sortBySimilarityDesc _ s

/-- Witness for C6: a same-id candidate of a different kind ("issue" 1
against query "pr" 1) with similarity 1 over threshold one half is kept. -/
theorem findDuplicates_spec_witness :
    (1 : ℚ) / 2 ≤ cosineSimilarity [1, 0] [1, 0] ∧
    toMatch ⟨"o/r", .pr, 1, "t", "", "", [1, 0]⟩ ⟨"o/r", .issue, 1, "u", "", "", [1, 0]⟩ ∈
      findDuplicates ⟨"o/r", .pr, 1, "t", "", "", [1, 0]⟩
        [⟨"o/r", .issue, 1, "u", "", "", [1, 0]⟩] (1 / 2) := by
  have hsim : cosineSimilarity [1, 0] [1, 0] = 1 := by
    norm_num [cosineSimilarity, Rat.sqrt_ofNat, Nat.sqrt_one]
  refine ⟨by rw [hsim]; norm_num, ?_⟩
  exact (findDuplicates_spec ⟨"o/r", .pr, 1, "t", "", "", [1, 0]⟩
      [⟨"o/r", .issue, 1, "u", "", "", [1, 0]⟩] (1 / 2)).2.1
    ⟨"o/r", .issue, 1, "u", "", "", [1, 0]⟩ (by simp)
    (by simp) (by rw [hsim]; norm_num)

/-- C5: greedy non-transitive clustering — the empty list and a singleton
produce no clusters; every returned cluster has more than one member; and
three pairwise-distinct items of which the second and third reach the
threshold against the first (the anchor — no condition between the second
and third is needed) form exactly one cluster containing all three in input
order. -/
theorem clusterDuplicates_spec :
    (∀ t : ℚ, clusterDuplicates [] t = []) ∧
    (∀ (x : EmbeddingRecord) (t : ℚ), clusterDuplicates [x] t = []) ∧
    (∀ (items : List EmbeddingRecord) (t : ℚ) (c : Cluster),
      c ∈ clusterDuplicates items t → 1 < c.members.length) ∧
    (∀ (x y z : EmbeddingRecord) (t : ℚ),
      clusterKey x ≠ clusterKey y → clusterKey x ≠ clusterKey z →
      clusterKey y ≠ clusterKey z →
      t ≤ cosineSimilarity x.embedding y.embedding →
      t ≤ cosineSimilarity x.embedding z.embedding →
      clusterDuplicates [x, y, z] t = [⟨x, [x, y, z]⟩]) := by
  refine ⟨?_, ?_, ?_, ?_⟩
  · intro t
    rfl
  · intro x t
    simp [clusterDuplicates, clusterLoop, addMembers, List.filter]
  · intro items t c hc
    simp only [clusterDuplicates, List.mem_filter, decide_eq_true_eq] at hc
    exact hc.2
  · intro x y z t hxy hxz hyz hsy hsz
    have hyx := Ne.symm hxy
    have hzx := Ne.symm hxz
    have hzy := Ne.symm hyz
    simp [clusterDuplicates, clusterLoop, addMembers, hxy, hxz, hyz, hyx, hzx,
      hzy, hsy, hsz, List.filter]

/-- Witness for C5: three distinct items with identical unit-direction
embeddings cluster into one three-member cluster at threshold one half. -/
theorem clusterDuplicates_spec_witness :
    clusterDuplicates
      [⟨"o/r", .pr, 1, "a", "", "", [1, 0]⟩,
       ⟨"o/r", .pr, 2, "b", "", "", [1, 0]⟩,
       ⟨"o/r", .pr, 3, "c", "", "", [1, 0]⟩] (1 / 2) =
      [⟨⟨"o/r", .pr, 1, "a", "", "", [1, 0]⟩,
        [⟨"o/r", .pr, 1, "a", "", "", [1, 0]⟩,
         ⟨"o/r", .pr, 2, "b", "", "", [1, 0]⟩,
         ⟨"o/r", .pr, 3, "c", "", "", [1, 0]⟩]⟩] := by
  have hsim : cosineSimilarity [1, 0] [1, 0] = 1 := by
    norm_num [cosineSimilarity, Rat.sqrt_ofNat, Nat.sqrt_one]
  exact clusterDuplicates_spec.2.2.2
    ⟨"o/r", .pr, 1, "a", "", "", [1, 0]⟩
    ⟨"o/r", .pr, 2, "b", "", "", [1, 0]⟩
    ⟨"o/r", .pr, 3, "c", "", "", [1, 0]⟩ (1 / 2)
    (by decide) (by decide) (by decide)
    (by rw [hsim]; norm_num) (by rw [hsim]; norm_num)

/-- Past the trusted/bot/daily gates, `handleIssue` is the start log
followed by the hourly-gated remainder. -/
theorem handleIssue_past_gates (cfg : PRGuardConfig) (p : IssuePayload) (db : Db)
    (provider : String → List ℚ) (ca : Bool) (hour date : String)
    (hnotpr : p.isPullRequest = false)
    (htrust : p.authorLogin ∉ cfg.trusted_users)
    (hbot : (cfg.skip_bots && isBot p.authorLogin p.authorType) = false)
    (hdaily : ∀ iid, p.installationId = some iid →
      (checkInstallationRateLimit db.daily iid date cfg.daily_limit).allowed = true) :
    handleIssue cfg p db provider ca hour date =
      ((issueAfterGates cfg p db provider ca hour date).1,
        .logInfo "issue.start" :: (issueAfterGates cfg p db provider ca hour date).2) := by
  rw [handleIssue]
  cases hii : p.installationId with
  | none => simp [hnotpr, htrust, hbot]
  | some iid => simp [hnotpr, htrust, hbot, hdaily iid hii]

/-- When the hourly check admits, the remainder is the core pipeline on the
state with the bumped hourly counter. -/
theorem issueAfterGates_pass (cfg : PRGuardConfig) (p : IssuePayload) (db : Db)
    (provider : String → List ℚ) (ca : Bool) (hour date : String)
    (hhour : (checkRateLimit db.hourly (p.owner ++ "/" ++ p.repoName) hour
      OPENAI_BUDGET_PER_HOUR).1 = true) :
    issueAfterGates cfg p db provider ca hour date =
      issueCore cfg p
        { db with hourly := (checkRateLimit db.hourly (p.owner ++ "/" ++ p.repoName) hour
            OPENAI_BUDGET_PER_HOUR).2 }
        provider ca date := by
  simp [issueAfterGates, hhour]

/-- When the hourly check rejects, the run stops with the warning log only;
the hourly counter still took the slot. -/
theorem issueAfterGates_fail (cfg : PRGuardConfig) (p : IssuePayload) (db : Db)
    (provider : String → List ℚ) (ca : Bool) (hour date : String)
    (hhour : (checkRateLimit db.hourly (p.owner ++ "/" ++ p.repoName) hour
      OPENAI_BUDGET_PER_HOUR).1 = false) :
    issueAfterGates cfg p db provider ca hour date =
      ({ db with hourly := (checkRateLimit db.hourly (p.owner ++ "/" ++ p.repoName) hour
          OPENAI_BUDGET_PER_HOUR).2 },
        [.logWarn "issue.rate_limited"]) := by
  simp [issueAfterGates, hhour]

/-- The provider stage emits provider-call effects only. -/
theorem getEmbeddingRun_effects (text : String) (provider : String → List ℚ)
    (e : Effect) (h : e ∈ (getEmbeddingRun text provider).2) :
    ∃ t, e = .providerCall t := by
  by_cases hi : (strTrim text).data.isEmpty = true
  · simp [getEmbeddingRun, hi] at h
  · simp [getEmbeddingRun, hi] at h
    exact ⟨_, h⟩

/-- With an empty embedding result the core pipeline degrades: the state is
untouched and the trace is the degraded outcome. -/
theorem issueCore_embedding_empty (cfg : PRGuardConfig) (p : IssuePayload) (db1 : Db)
    (provider : String → List ℚ) (date : String)
    (hemb : (getEmbeddingRun (buildEmbeddingInput p.title (normalizeBody p.body))
      provider).1 = []) :
    issueCore cfg p db1 provider true date =
      (db1,
        (if cfg.dry_run then [] else [Effect.ensureLabelsCalled]) ++
          (getEmbeddingRun (buildEmbeddingInput p.title (normalizeBody p.body)) provider).2 ++
          [Effect.metric "openai_calls_total"] ++ [.logWarn "issue.embedding_failed"] ++
          degradedTail cfg) := by
  have hE : (getEmbeddingRun (buildEmbeddingInput p.title (normalizeBody p.body))
      provider).1.isEmpty = true := by
    rw [hemb]
    rfl
  simp [issueCore, hE]

/-- The full (non-degraded) path logs completion and never posts the
degraded comment. -/
theorem issueFullPath_complete (cfg : PRGuardConfig) (p : IssuePayload) (db1 : Db)
    (vec : List ℚ) (body date : String) :
    Effect.logInfo "issue.complete" ∈ (issueFullPath cfg p db1 vec body date).2 ∧
    Effect.commentUpsert .degraded ∉ (issueFullPath cfg p db1 vec body date).2 := by
  constructor
  · simp [issueFullPath]
  · intro hmem
    simp only [issueFullPath, upsertSummaryCommentEff, List.mem_append,
      List.mem_cons, List.not_mem_nil] at hmem
    split_ifs at hmem <;> simp_all

/-- The daily counter changes only when the run completes the full
(non-degraded) path: it then logged completion and posted no degraded
comment. -/
theorem daily_unchanged_unless_complete (cfg : PRGuardConfig) (p : IssuePayload)
    (db : Db) (provider : String → List ℚ) (ca : Bool) (hour date : String)
    (hne : (handleIssue cfg p db provider ca hour date).1.daily ≠ db.daily) :
    Effect.logInfo "issue.complete" ∈ (handleIssue cfg p db provider ca hour date).2 ∧
    Effect.commentUpsert .degraded ∉ (handleIssue cfg p db provider ca hour date).2 := by
  rw [handleIssue] at hne ⊢
  by_cases hpr : p.isPullRequest = true
  · simp [hpr] at hne
  simp only [hpr, if_false, Bool.false_eq_true] at hne ⊢
  by_cases htr : p.authorLogin ∈ cfg.trusted_users
  · simp [htr] at hne
  simp only [if_neg htr] at hne ⊢
  by_cases hbt : (cfg.skip_bots && isBot p.authorLogin p.authorType) = true
  · simp [hbt] at hne
  simp only [hbt, if_false, Bool.false_eq_true] at hne ⊢
  have hAG : (issueAfterGates cfg p db provider ca hour date).1.daily ≠ db.daily →
      Effect.logInfo "issue.complete" ∈ (issueAfterGates cfg p db provider ca hour date).2 ∧
      Effect.commentUpsert .degraded ∉ (issueAfterGates cfg p db provider ca hour date).2 := by
    intro hne2
    rw [issueAfterGates] at hne2 ⊢
    by_cases hhl : (checkRateLimit db.hourly (p.owner ++ "/" ++ p.repoName) hour
        OPENAI_BUDGET_PER_HOUR).1 = true
    · simp only [hhl, if_true] at hne2 ⊢
      rw [issueCore] at hne2 ⊢
      by_cases hca : ca = true
      · simp only [hca, if_true] at hne2 ⊢
        by_cases hie : (getEmbeddingRun (buildEmbeddingInput p.title (normalizeBody p.body))
            provider).1.isEmpty = true
        · simp [hie] at hne2
        · simp only [hie, Bool.false_eq_true, if_false] at hne2 ⊢
          have hfc := issueFullPath_complete cfg p
            { db with hourly := (checkRateLimit db.hourly (p.owner ++ "/" ++ p.repoName) hour
                OPENAI_BUDGET_PER_HOUR).2 }
            (getEmbeddingRun (buildEmbeddingInput p.title (normalizeBody p.body)) provider).1
            (normalizeBody p.body) date
          refine ⟨by simp [hfc.1], ?_⟩
          intro hmem
          simp only [List.mem_append] at hmem
          rcases hmem with ((hmem | hmem) | hmem) | hmem
          · by_cases hdr : cfg.dry_run = true <;> simp [hdr] at hmem
          · obtain ⟨t, ht⟩ := getEmbeddingRun_effects _ _ _ hmem
            simp at ht
          · simp at hmem
          · exact hfc.2 hmem
      · simp only [hca, Bool.false_eq_true, if_false] at hne2
        simp at hne2
    · simp only [Bool.not_eq_true] at hhl
      simp [hhl] at hne2
  cases hii : p.installationId with
  | none =>
    simp only [hii] at hne ⊢
    have h2 := hAG hne
    refine ⟨List.mem_cons_of_mem _ h2.1, ?_⟩
    intro hmem
    rcases List.mem_cons.mp hmem with hmem | hmem
    · simp at hmem
    · exact h2.2 hmem
  | some iid =>
    simp only [hii] at hne ⊢
    by_cases hall : (checkInstallationRateLimit db.daily iid date cfg.daily_limit).allowed = true
    · simp only [hall, if_true] at hne ⊢
      have h2 := hAG hne
      refine ⟨List.mem_cons_of_mem _ h2.1, ?_⟩
      intro hmem
      rcases List.mem_cons.mp hmem with hmem | hmem
      · simp at hmem
      · exact h2.2 hmem
    · simp only [hall, Bool.false_eq_true, if_false] at hne
      simp at hne

/-- C3: when the embedding result is the empty sentinel (provider outage or
blank input), the run degrades — the embeddings and analyses stores and the
daily counter are untouched (so no VectorStore upsert and no duplicate
detection), the item is still counted as analyzed, the fixed needs-attention
outcome (needs-review label plus degraded marker comment) is applied when
not in dry-run, no normal summary comment is posted; and on every run the
daily counter changes only when the full non-degraded path completed. -/
theorem degraded_mode_spec (cfg : PRGuardConfig) (p : IssuePayload) (db : Db)
    (provider : String → List ℚ) (hour date : String)
    (hnotpr : p.isPullRequest = false)
    (htrust : p.authorLogin ∉ cfg.trusted_users)
    (hbot : (cfg.skip_bots && isBot p.authorLogin p.authorType) = false)
    (hdaily : ∀ iid, p.installationId = some iid →
      (checkInstallationRateLimit db.daily iid date cfg.daily_limit).allowed = true)
    (hhour : (checkRateLimit db.hourly (p.owner ++ "/" ++ p.repoName) hour
      OPENAI_BUDGET_PER_HOUR).1 = true)
    (hemb : (getEmbeddingRun (buildEmbeddingInput p.title (normalizeBody p.body))
      provider).1 = []) :
    (handleIssue cfg p db provider true hour date).1.embeddings = db.embeddings ∧
    (handleIssue cfg p db provider true hour date).1.analyses = db.analyses ∧
    (handleIssue cfg p db provider true hour date).1.daily = db.daily ∧
    Effect.metric "issues_analyzed_total" ∈ (handleIssue cfg p db provider true hour date).2 ∧
    Effect.metric "openai_degraded_total" ∈ (handleIssue cfg p db provider true hour date).2 ∧
    (cfg.dry_run = false →
      Effect.labelApply [cfg.labels.needs_review] ∈
        (handleIssue cfg p db provider true hour date).2 ∧
      Effect.commentUpsert .degraded ∈ (handleIssue cfg p db provider true hour date).2) ∧
    (∀ dups, Effect.commentUpsert (.summary dups) ∉
      (handleIssue cfg p db provider true hour date).2) ∧
    (∀ (provider2 : String → List ℚ) (ca2 : Bool),
      (handleIssue cfg p db provider2 ca2 hour date).1.daily ≠ db.daily →
      Effect.logInfo "issue.complete" ∈ (handleIssue cfg p db provider2 ca2 hour date).2 ∧
      Effect.commentUpsert .degraded ∉ (handleIssue cfg p db provider2 ca2 hour date).2) := by
  rw [handleIssue_past_gates cfg p db provider true hour date hnotpr htrust hbot hdaily,
    issueAfterGates_pass cfg p db provider true hour date hhour,
    issueCore_embedding_empty cfg p _ provider date hemb]
  have hnotemb : ∀ dups, Effect.commentUpsert (.summary dups) ∉
      (getEmbeddingRun (buildEmbeddingInput p.title (normalizeBody p.body)) provider).2 := by
    intro dups hm
    obtain ⟨t, ht⟩ := getEmbeddingRun_effects _ _ _ hm
    simp at ht
  refine ⟨rfl, rfl, rfl, ?_, ?_, ?_, ?_, ?_⟩
  · simp [degradedTail]
  · simp [degradedTail]
  · intro hdr
    simp [hdr, degradedTail, handleDegradedIssueEff, upsertSummaryCommentEff]
  · intro dups hmem
    by_cases hdr : cfg.dry_run = true <;>
      simp [hdr, degradedTail, handleDegradedIssueEff, upsertSummaryCommentEff,
        hnotemb dups] at hmem
  · exact fun provider2 ca2 hne =>
      daily_unchanged_unless_complete cfg p db provider2 ca2 hour date hne

/-- Witness for C3 at a concrete provider outage: default configuration,
ordinary author, fresh store, provider returning the empty sentinel — the
needs-review label and degraded comment are applied and the daily counter
is unchanged. -/
theorem degraded_mode_spec_witness :
    Effect.labelApply [sampleConfig.labels.needs_review] ∈
      (handleIssue sampleConfig samplePayload emptyDb (fun _ => []) true "H" "D").2 ∧
    Effect.commentUpsert .degraded ∈
      (handleIssue sampleConfig samplePayload emptyDb (fun _ => []) true "H" "D").2 ∧
    (handleIssue sampleConfig samplePayload emptyDb (fun _ => []) true "H" "D").1.daily =
      emptyDb.daily := by
  have h := degraded_mode_spec sampleConfig samplePayload emptyDb (fun _ => []) "H" "D"
    rfl (by simp [sampleConfig]) (by decide)
    (by intro iid hx; simp [samplePayload] at hx) rfl rfl
  exact ⟨(h.2.2.2.2.2.1 rfl).1, (h.2.2.2.2.2.1 rfl).2, h.2.2.1⟩

/-- C2 counterexample: a run stopped by the daily tenant gate (limit 0,
installation 7, fresh store, not dry-run) does create a comment on the
item — the trace ends with a comment-upsert of the daily-limit notice, so
the gate's only signal is not a log entry. -/
theorem dailyGate_comment_counterexample :
    (handleIssue { sampleConfig with daily_limit := 0 }
      { samplePayload with installationId := some 7 } emptyDb
      (fun _ => [1]) true "H" "D").2 =
      [.logInfo "issue.start", .logWarn "issue.daily_limit",
        .commentUpsert (.dailyLimitNotice 0 0)] ∧
    Effect.commentUpsert (.dailyLimitNotice 0 0) ∈
      (handleIssue { sampleConfig with daily_limit := 0 }
        { samplePayload with installationId := some 7 } emptyDb
        (fun _ => [1]) true "H" "D").2 ∧
    (checkInstallationRateLimit emptyDb.daily 7 "D" 0).allowed = false := by
  have hb : isBot "alice" none = false := by decide
  have h1 : (handleIssue { sampleConfig with daily_limit := 0 }
      { samplePayload with installationId := some 7 } emptyDb
      (fun _ => [1]) true "H" "D").2 =
      [.logInfo "issue.start", .logWarn "issue.daily_limit",
        .commentUpsert (.dailyLimitNotice 0 0)] := by
    rw [handleIssue]
    simp [samplePayload, sampleConfig, emptyDb, hb, checkInstallationRateLimit,
      upsertSummaryCommentEff]
  exact ⟨h1, by rw [h1]; simp, rfl⟩

/-- C2 (amended): a run stopped by the hourly collection gate makes no
provider call, no store write, applies no label and posts no comment — its
entire trace is the start log and a warning log (the hourly slot is still
consumed).  A run stopped by the daily tenant gate also makes no provider
call, no store write (not even the hourly counter) and applies no label,
but it does surface a comment: the marker comment is updated or created
with a daily-limit notice (suppressed only in dry-run mode). -/
theorem rateLimitGates_stop_pipeline (cfg : PRGuardConfig) (p : IssuePayload)
    (db : Db) (provider : String → List ℚ) (ca : Bool) (hour date : String)
    (hnotpr : p.isPullRequest = false)
    (htrust : p.authorLogin ∉ cfg.trusted_users)
    (hbot : (cfg.skip_bots && isBot p.authorLogin p.authorType) = false) :
    (∀ iid, p.installationId = some iid →
      (checkInstallationRateLimit db.daily iid date cfg.daily_limit).allowed = false →
      handleIssue cfg p db provider ca hour date =
        (db, [.logInfo "issue.start", .logWarn "issue.daily_limit"] ++
          upsertSummaryCommentEff cfg.dry_run
            (.dailyLimitNotice
              (checkInstallationRateLimit db.daily iid date cfg.daily_limit).used
              cfg.daily_limit))) ∧
    ((p.installationId = none ∨ ∃ iid, p.installationId = some iid ∧
        (checkInstallationRateLimit db.daily iid date cfg.daily_limit).allowed = true) →
      (checkRateLimit db.hourly (p.owner ++ "/" ++ p.repoName) hour
        OPENAI_BUDGET_PER_HOUR).1 = false →
      handleIssue cfg p db provider ca hour date =
        ({ db with hourly := (checkRateLimit db.hourly (p.owner ++ "/" ++ p.repoName) hour
            OPENAI_BUDGET_PER_HOUR).2 },
          [.logInfo "issue.start", .logWarn "issue.rate_limited"])) := by
  constructor
  · intro iid hiid hall
    rw [handleIssue]
    simp [hnotpr, htrust, hbot, hiid, hall]
  · intro hgate hhl
    rcases hgate with hnone | ⟨iid, hiid, hall⟩
    · rw [handleIssue]
      simp [hnotpr, htrust, hbot, hnone, issueAfterGates, hhl]
    · rw [handleIssue]
      simp [hnotpr, htrust, hbot, hiid, hall, issueAfterGates, hhl]

/-- Witness for the amended C2 at a concrete hourly-exhausted run: the trace
is exactly the start log and the rate-limited warning. -/
theorem rateLimitGates_stop_pipeline_witness :
    (handleIssue sampleConfig samplePayload
      { emptyDb with hourly := fun _ => 60 } (fun _ => [1]) true "H" "D").2 =
      [.logInfo "issue.start", .logWarn "issue.rate_limited"] := by
  have h := (rateLimitGates_stop_pipeline sampleConfig samplePayload
      { emptyDb with hourly := fun _ => 60 } (fun _ => [1]) true "H" "D"
      rfl (by simp [sampleConfig]) (by decide)).2 (Or.inl rfl) rfl
  rw [h]

/-- C10: an empty or whitespace-only embedding input returns the empty
vector without any provider call; consequently an issue with blank title
and blank body sails through the gates into degraded mode — no provider
call appears in the trace, the degraded counter is bumped, the VectorStore
is untouched and (outside dry-run) the degraded comment is posted — making
a blank item indistinguishable at the pipeline boundary from a provider
outage although the provider was never contacted. -/
theorem blank_input_degrades (cfg : PRGuardConfig) (p : IssuePayload) (db : Db)
    (provider : String → List ℚ) (hour date : String)
    (hnotpr : p.isPullRequest = false)
    (htrust : p.authorLogin ∉ cfg.trusted_users)
    (hbot : (cfg.skip_bots && isBot p.authorLogin p.authorType) = false)
    (hdaily : ∀ iid, p.installationId = some iid →
      (checkInstallationRateLimit db.daily iid date cfg.daily_limit).allowed = true)
    (hhour : (checkRateLimit db.hourly (p.owner ++ "/" ++ p.repoName) hour
      OPENAI_BUDGET_PER_HOUR).1 = true)
    (htitle : strTrim p.title = "")
    (hbody : strTrim (normalizeBody p.body) = "") :
    (∀ (text : String) (provider2 : String → List ℚ), strTrim text = "" →
      getEmbeddingRun text provider2 = ([], [])) ∧
    (∀ t, Effect.providerCall t ∉ (handleIssue cfg p db provider true hour date).2) ∧
    Effect.metric "openai_degraded_total" ∈ (handleIssue cfg p db provider true hour date).2 ∧
    (handleIssue cfg p db provider true hour date).1.embeddings = db.embeddings ∧
    (cfg.dry_run = false →
      Effect.commentUpsert .degraded ∈ (handleIssue cfg p db provider true hour date).2) := by
  have hblank : ∀ (text : String) (provider2 : String → List ℚ), strTrim text = "" →
      getEmbeddingRun text provider2 = ([], []) := by
    intro text provider2 h
    simp only [getEmbeddingRun, h]
    rfl
  have hin : buildEmbeddingInput p.title (normalizeBody p.body) = "" := by
    simp only [buildEmbeddingInput]
    rw [htitle, hbody]
    rfl
  have hemb : (getEmbeddingRun (buildEmbeddingInput p.title (normalizeBody p.body))
      provider).1 = [] := by
    rw [hin, hblank "" provider rfl]
  have hEff : (getEmbeddingRun (buildEmbeddingInput p.title (normalizeBody p.body))
      provider).2 = [] := by
    rw [hin, hblank "" provider rfl]
  rw [handleIssue_past_gates cfg p db provider true hour date hnotpr htrust hbot hdaily,
    issueAfterGates_pass cfg p db provider true hour date hhour,
    issueCore_embedding_empty cfg p _ provider date hemb, hEff]
  refine ⟨hblank, ?_, ?_, rfl, ?_⟩
  · intro t hmem
    by_cases hdr : cfg.dry_run = true <;>
      simp [hdr, degradedTail, handleDegradedIssueEff, upsertSummaryCommentEff] at hmem
  · simp [degradedTail]
  · intro hdr
    simp [hdr, degradedTail, handleDegradedIssueEff, upsertSummaryCommentEff]

/-- Witness for C10: an issue whose title is a single space and whose body
is null degrades with no provider call in the trace. -/
theorem blank_input_degrades_witness :
    (∀ t, Effect.providerCall t ∉
      (handleIssue sampleConfig { samplePayload with title := " ", body := none }
        emptyDb (fun _ => [1]) true "H" "D").2) ∧
    Effect.metric "openai_degraded_total" ∈
      (handleIssue sampleConfig { samplePayload with title := " ", body := none }
        emptyDb (fun _ => [1]) true "H" "D").2 := by
  have h := blank_input_degrades sampleConfig
    { samplePayload with title := " ", body := none } emptyDb (fun _ => [1]) "H" "D"
    rfl (by simp [sampleConfig]) (by decide)
    (by intro iid hx; simp [samplePayload] at hx) rfl (by decide) (by decide)
  exact ⟨h.2.1, h.2.2.1⟩

end PRGuard
